import Mathlib

/-
Verification of the moonchild freeform collage layout and interaction engine.

The definitions shallowly embed the TypeScript source of the repository:

* namespace Planner — the packing algorithm of the IrregularCollage
  iteration that allows bounded overlap (generatePositions, isOverlapping,
  findBestPosition, loadImageDimensions, shuffleArray, and the size
  computation).  JS numbers are modelled as rationals.  Every call to
  Math.random, and the value of Math.sqrt(targetArea), are supplied as
  explicit oracle inputs, so the definitions are pure and executable.

* namespace CV — the CollageView drag controller (handleMouseDown,
  handleMouseMove, handleMouseUp, handleClick, expandCanvasIfNeeded) as a
  step function on an explicit component state driven by pointer events.
  The mouse-move and mouse-up listeners are registered by an effect whose
  dependency list holds only isDragging and draggedItem, so the registered
  listeners close over the render at which that effect last ran: they read
  the drag-start snapshot of dragState and of the canvas size, while
  functional state updates and the ref-based container geometry stay live.
  The model carries that snapshot explicitly (Snapshot, registerEffect)
  and threads it to the two listeners.  The position a move writes to the
  dragged element style is moveDragPosition; the stored currentPos is the
  canvas-space pointer position it derives from.

* namespace CV1 — the z-index allocator of the earlier CollageView
  iteration (nextZIndex, imageZIndices, the commit part of handleMouseUp)
  and its move-time canvas growth rule.

The invocation of the onGifClick callback is modelled by appending the
selected id to a clicks list in the component state.
-/

structure Pos where
  x : ℚ
  y : ℚ
deriving DecidableEq

structure Box where
  x : ℚ
  y : ℚ
  width : ℚ
  height : ℚ
deriving DecidableEq

structure CanvasSize where
  width : ℚ
  height : ℚ
deriving DecidableEq

structure Dims where
  naturalWidth : ℚ
  naturalHeight : ℚ
deriving DecidableEq

structure MediaItem where
  id : String
  path : String
deriving DecidableEq

namespace Planner

/-- Models loadImageDimensions: the probe resolves with the natural size on
load, and with the fixed 400 by 400 fallback on error.  A failing probe is
modelled by the `none` outcome; the promise never rejects, which is the
totality of this function. -/
def loadImageDimensions (outcome : Option Dims) : Dims :=
  match outcome with
  | some d => d
  | none => ⟨400, 400⟩

/-- Models the destructuring swap of shuffleArray at indices i and j.
Out-of-range indices leave the list unchanged (they do not occur in the
shuffle loop). -/
def swapAt (l : List α) (i j : ℕ) : List α :=
  match l.get? i, l.get? j with
  | some a, some b => (l.set i b).set j a
  | _, _ => l

/-- The loop of shuffleArray, iterating i from the high index down to 1;
rands i models Math.floor(Math.random() * (i + 1)), reduced mod (i + 1) so
that it lies in the same range 0..i. -/
def shuffleStep (rands : ℕ → ℕ) (l : List α) : ℕ → List α
  | 0 => l
  | i + 1 => shuffleStep rands (swapAt l (i + 1) (rands (i + 1) % (i + 2))) i

/-- Models shuffleArray (Fisher-Yates over a copy of the array). -/
def shuffleArray (rands : ℕ → ℕ) (l : List α) : List α :=
  shuffleStep rands l (l.length - 1)

/-- Models the size-category draw of generatePositions: from the uniform
draw sizeCategory and the second draw rArea, produce the pair
(targetArea, maxDimension) exactly as the five branches of the source do. -/
def sizeCategoryParams (sizeCategory rArea containerWidth : ℚ) : ℚ × ℚ :=
  if sizeCategory < 15/100 then
    (300000 + rArea * 200000, containerWidth * (4/10))
  else if sizeCategory < 35/100 then
    (200000 + rArea * 150000, containerWidth * (3/10))
  else if sizeCategory < 65/100 then
    (150000 + rArea * 100000, containerWidth * (25/100))
  else if sizeCategory < 85/100 then
    (80000 + rArea * 70000, containerWidth * (2/10))
  else
    (40000 + rArea * 60000, containerWidth * (12/100))

/-- Models the aspect-ratio branches of generatePositions that turn
baseSize (the square root of the target area, supplied as an input because
it is irrational) and maxDimension into a concrete display size, followed
by the final floor displayWidth = max(displayWidth, 100) and
displayHeight = max(displayHeight, 100). -/
def computeDisplaySize (aspect baseSize maxDimension : ℚ) : ℚ × ℚ :=
  let wh :=
    if aspect > 3/2 then
      let w := min (baseSize * (14/10)) maxDimension
      (w, w / aspect)
    else if aspect > 3/4 then
      if aspect > 1 then
        let w := min baseSize maxDimension
        (w, w / aspect)
      else
        let h := min baseSize (maxDimension * (8/10))
        (h * aspect, h)
    else
      let h := min (baseSize * (13/10)) (maxDimension * (12/10))
      (h * aspect, h)
  (max wh.1 100, max wh.2 100)

/-- Per-item random draws of the sizing phase: the sizeCategory draw, the
draw inside the target-area range, the value of Math.sqrt(targetArea), and
the draw for the initial z-index. -/
structure SizeOracle where
  sizeCategory : ℚ
  rArea : ℚ
  baseSize : ℚ
  zRand : ℕ

/-- An item together with its computed display size and area, as built by
the itemsWithSizes map of generatePositions. -/
structure SizedItem where
  id : String
  displayWidth : ℚ
  displayHeight : ℚ
  area : ℚ
  zRand : ℕ
deriving DecidableEq

/-- The itemsWithSizes map of generatePositions: attach a display size to
every item, consuming one SizeOracle per item in order. -/
def attachSizes (oracle : ℕ → SizeOracle) (containerWidth : ℚ) :
    ℕ → List (MediaItem × Dims) → List SizedItem
  | _, [] => []
  | k, (m, d) :: rest =>
    let o := oracle k
    let aspect := d.naturalWidth / d.naturalHeight
    let params := sizeCategoryParams o.sizeCategory o.rArea containerWidth
    let wh := computeDisplaySize aspect o.baseSize params.2
    ⟨m.id, wh.1, wh.2, wh.1 * wh.2, o.zRand⟩ ::
      attachSizes oracle containerWidth (k + 1) rest

/-- Models isOverlapping: the candidate box at (x, y) with the given size
conflicts with some occupied area when their intersection exceeds 15
percent of the smaller of the two box areas. -/
def isOverlapping (occupiedAreas : List Box) (x y width height : ℚ) : Bool :=
  occupiedAreas.any fun area =>
    let overlapX := max 0 (min (x + width) (area.x + area.width) - max x area.x)
    let overlapY := max 0 (min (y + height) (area.y + area.height) - max y area.y)
    let overlapArea := overlapX * overlapY
    let thisArea := width * height
    let otherArea := area.width * area.height
    let maxAllowedOverlap := min thisArea otherArea * (15/100)
    decide (overlapArea > maxAllowedOverlap)

/-- Number of iterations of a JS loop for (v = start; v < limit; v += step)
with positive step: the ceiling of (limit - start) / step, truncated at 0. -/
def stepCount (start step limit : ℚ) : ℕ :=
  (Int.ceil ((limit - start) / step)).toNat

/-- The values visited by a JS loop for (v = start; v < limit; v += step). -/
def stepsBelow (start step limit : ℚ) : List ℚ :=
  (List.range (stepCount start step limit)).map fun k => start + step * k

/-- Per-placement random draws: the 20 probe attempts of the secondary pass
(each a pair of Math.random values) and the draw for the fallback x. -/
structure PlaceOracle where
  probes : List (ℚ × ℚ)
  fallbackR : ℚ

/-- The candidate points tried by findBestPosition, in the order the source
tries them: the coarse 15 pixel grid in raster order (y outer from 5 below
currentMaxHeight, x inner from 5 below maxWidth), followed by up to 20
random probe points of the secondary pass. -/
def candidatePoints (o : PlaceOracle) (occupiedAreas : List Box)
    (containerWidth width : ℚ) : List (ℚ × ℚ) :=
  let gridSize : ℚ := 15
  let maxWidth := containerWidth - width - 10
  let currentMaxHeight :=
    ((occupiedAreas.map fun area => area.y + area.height).foldl max 800) + 400
  let gridPoints := (stepsBelow 5 gridSize currentMaxHeight).flatMap fun y =>
    (stepsBelow 5 gridSize maxWidth).map fun x => (x, y)
  let probePoints := (o.probes.take 20).map fun r =>
    (r.1 * (maxWidth - 10) + 5, r.2 * currentMaxHeight + 5)
  gridPoints ++ probePoints

/-- The no-overlap fallback of findBestPosition: place below the current
lowest occupied point, at a random x within 5..105. -/
def fallbackPoint (o : PlaceOracle) (occupiedAreas : List Box) : ℚ × ℚ :=
  let maxY := (occupiedAreas.map fun area => area.y + area.height).foldl max 0
  (5 + o.fallbackR * 100, maxY + 10)

/-- Models findBestPosition: scan the coarse grid in raster order, then up
to 20 random probes, accepting the first point that is not overlapping;
otherwise place below the current lowest occupied point. -/
def findBestPosition (o : PlaceOracle) (occupiedAreas : List Box)
    (containerWidth width height : ℚ) : ℚ × ℚ :=
  match (candidatePoints o occupiedAreas containerWidth width).find?
      (fun p => !(isOverlapping occupiedAreas p.1 p.2 width height)) with
  | some p => p
  | none => fallbackPoint o occupiedAreas

/-- One placed item of the positions array built by generatePositions. -/
structure Placed where
  id : String
  x : ℚ
  y : ℚ
  width : ℚ
  height : ℚ
  zIndex : ℕ
deriving DecidableEq

/-- The bounding box of a placed item, as pushed onto occupiedAreas. -/
def boxOf (p : Placed) : Box :=
  ⟨p.x, p.y, p.width, p.height⟩

/-- The placement loop of generatePositions over the sorted items: find a
position for each item, push its box onto occupiedAreas and emit the
positioned record, whose z-index is the random draw mapped into 1..25. -/
def placeItems (oracle : ℕ → PlaceOracle) (containerWidth : ℚ) :
    ℕ → List Box → List SizedItem → List Placed
  | _, _, [] => []
  | k, occupiedAreas, it :: rest =>
    let pos := findBestPosition (oracle k) occupiedAreas containerWidth
      it.displayWidth it.displayHeight
    let box : Box := ⟨pos.1, pos.2, it.displayWidth, it.displayHeight⟩
    ⟨it.id, pos.1, pos.2, it.displayWidth, it.displayHeight, it.zRand % 25 + 1⟩ ::
      placeItems oracle containerWidth (k + 1) (occupiedAreas ++ [box]) rest

/-- Models generatePositions: shuffle the items, resolve their natural
dimensions (with fallback), attach display sizes, sort by area descending
(the Array sort with comparator b.area - a.area), and run the placement
loop.  containerWidth is window.innerWidth * 3 at the call site. -/
def generatePositions (media : List MediaItem) (dimOracle : String → Option Dims)
    (shuffleRands : ℕ → ℕ) (sizeOracle : ℕ → SizeOracle)
    (placeOracle : ℕ → PlaceOracle) (innerWidth : ℚ) : List Placed :=
  let containerWidth := innerWidth * 3
  let shuffled := shuffleArray shuffleRands media
  let withDims := shuffled.map fun m => (m, loadImageDimensions (dimOracle m.path))
  let itemsWithSizes := attachSizes sizeOracle containerWidth 0 withDims
  let sortedItems := itemsWithSizes.insertionSort fun a b => b.area ≤ a.area
  placeItems placeOracle containerWidth 0 [] sortedItems

/-- The JS spread Math.max(...list): none models the minus-infinity result
of an empty argument list. -/
def spreadMax (l : List ℚ) : Option ℚ :=
  l.foldl (fun acc v => match acc with | none => some v | some a => some (max a v)) none

/-- The value passed to setContainerHeight after placement: the maximal
lower edge plus 50; minus infinity propagates through the addition when
there are no positions. -/
def containerHeightAfter (positions : List Placed) : Option ℚ :=
  (spreadMax (positions.map fun p => p.y + p.height)).map (· + 50)

/-- The value passed to setContainerWidth after placement:
Math.max(maxX + 50, window.innerWidth); with no positions the spread max is
minus infinity and the viewport width wins. -/
def containerWidthAfter (positions : List Placed) (innerWidth : ℚ) : ℚ :=
  match (spreadMax (positions.map fun p => p.x + p.width)).map (· + 50) with
  | none => innerWidth
  | some v => max v innerWidth

/-- The bounded-overlap relation of the spec: the intersection of the two
boxes does not exceed 15 percent of the smaller box area. -/
def boundedOverlap (a b : Box) : Prop :=
  max 0 (min (a.x + a.width) (b.x + b.width) - max a.x b.x) *
    max 0 (min (a.y + a.height) (b.y + b.height) - max a.y b.y) ≤
    min (a.width * a.height) (b.width * b.height) * (15/100)

instance (a b : Box) : Decidable (boundedOverlap a b) := by
  unfold boundedOverlap
  infer_instance

theorem cons_set_perm (x : α) : ∀ (t : List α) (k : ℕ) (b : α), t.get? k = some b →
    List.Perm (b :: t.set k x) (x :: t) := by
  intro t
  induction t with
  | nil => intro k b h; simp at h
  | cons a t ih =>
    intro k b h
    cases k with
    | zero =>
      simp at h
      subst h
      exact List.Perm.swap x _ t
    | succ k =>
      have h2 : t.get? k = some b := by simpa using h
      have p1 : List.Perm (b :: a :: t.set k x) (a :: b :: t.set k x) :=
        List.Perm.swap a b (t.set k x)
      have p2 : List.Perm (a :: b :: t.set k x) (a :: x :: t) := (ih k b h2).cons a
      have p3 : List.Perm (a :: x :: t) (x :: a :: t) := List.Perm.swap x a t
      exact (p1.trans p2).trans p3

theorem set_set_perm : ∀ (l : List α) (i j : ℕ) (a b : α),
    l.get? i = some a → l.get? j = some b → List.Perm ((l.set i b).set j a) l := by
  intro l
  induction l with
  | nil => intro i j a b hi; simp at hi
  | cons x t ih =>
    intro i j a b hi hj
    cases i with
    | zero =>
      cases j with
      | zero =>
        simp at hi hj
        subst hi
        subst hj
        exact List.Perm.refl _
      | succ j =>
        simp at hi
        subst hi
        have hj2 : t.get? j = some b := by simpa using hj
        exact cons_set_perm _ t j b hj2
    | succ i =>
      cases j with
      | zero =>
        simp at hj
        subst hj
        have hi2 : t.get? i = some a := by simpa using hi
        exact cons_set_perm _ t i a hi2
      | succ j =>
        have hi2 : t.get? i = some a := by simpa using hi
        have hj2 : t.get? j = some b := by simpa using hj
        exact (ih i j a b hi2 hj2).cons x

theorem swapAt_perm (l : List α) (i j : ℕ) : List.Perm (swapAt l i j) l := by
  unfold swapAt
  cases hi : l.get? i with
  | none => exact List.Perm.refl l
  | some a =>
    cases hj : l.get? j with
    | none => exact List.Perm.refl l
    | some b => exact set_set_perm l i j a b hi hj

theorem shuffleStep_perm (rands : ℕ → ℕ) :
    ∀ (n : ℕ) (l : List α), List.Perm (shuffleStep rands l n) l := by
  intro n
  induction n with
  | zero => intro l; exact List.Perm.refl l
  | succ n ih =>
    intro l
    exact (ih _).trans (swapAt_perm l (n + 1) (rands (n + 1) % (n + 2)))

theorem shuffleArray_perm (rands : ℕ → ℕ) (l : List α) :
    List.Perm (shuffleArray rands l) l :=
  shuffleStep_perm rands (l.length - 1) l

theorem attachSizes_ids (oracle : ℕ → SizeOracle) (cw : ℚ) :
    ∀ (l : List (MediaItem × Dims)) (k : ℕ),
    (attachSizes oracle cw k l).map (fun it => it.id) = l.map (fun md => md.1.id) := by
  intro l
  induction l with
  | nil => intro k; rfl
  | cons md rest ih =>
    intro k
    simp only [attachSizes, List.map_cons, ih]

theorem placeItems_ids (oracle : ℕ → PlaceOracle) (cw : ℚ) :
    ∀ (l : List SizedItem) (k : ℕ) (occ : List Box),
    (placeItems oracle cw k occ l).map (fun p => p.id) = l.map (fun it => it.id) := by
  intro l
  induction l with
  | nil => intro k occ; rfl
  | cons it rest ih =>
    intro k occ
    simp only [placeItems, List.map_cons, ih]

theorem boundedOverlap_symm {a b : Box} (h : boundedOverlap a b) : boundedOverlap b a := by
  unfold boundedOverlap at h ⊢
  rw [min_comm (b.x + b.width) (a.x + a.width), max_comm b.x a.x,
    min_comm (b.y + b.height) (a.y + a.height), max_comm b.y a.y,
    min_comm (b.width * b.height) (a.width * a.height)]
  exact h

theorem isOverlapping_eq_false {occ : List Box} {x y w h : ℚ}
    (hov : isOverlapping occ x y w h = false) :
    ∀ a ∈ occ, boundedOverlap ⟨x, y, w, h⟩ a := by
  intro a ha
  unfold isOverlapping at hov
  rw [List.any_eq_false] at hov
  have h2 := hov a ha
  simp only [decide_eq_true_eq, not_lt] at h2
  unfold boundedOverlap
  exact h2

theorem foldl_max_le_init (l : List ℚ) : ∀ s : ℚ, s ≤ l.foldl max s := by
  induction l with
  | nil => intro s; exact le_refl s
  | cons a t ih => intro s; exact le_trans (le_max_left s a) (ih (max s a))

theorem mem_le_foldl_max (l : List ℚ) : ∀ (s v : ℚ), v ∈ l → v ≤ l.foldl max s := by
  induction l with
  | nil => intro s v hv; simp at hv
  | cons a t ih =>
    intro s v hv
    rcases List.mem_cons.mp hv with rfl | hv
    · exact le_trans (le_max_right s v) (foldl_max_le_init t (max s v))
    · exact ih (max s a) v hv

theorem fallbackPoint_boundedOverlap (o : PlaceOracle) (occ : List Box) (w h : ℚ)
    (hw : 0 ≤ w * h) (hocc : ∀ a ∈ occ, 0 ≤ a.width * a.height) :
    ∀ a ∈ occ,
      boundedOverlap ⟨(fallbackPoint o occ).1, (fallbackPoint o occ).2, w, h⟩ a := by
  intro a ha
  unfold fallbackPoint boundedOverlap
  dsimp only
  have hy : a.y + a.height ≤ (occ.map fun area => area.y + area.height).foldl max 0 :=
    mem_le_foldl_max _ 0 _ (List.mem_map_of_mem _ ha)
  have h2 : max 0 (min ((occ.map fun area => area.y + area.height).foldl max 0 + 10 + h)
      (a.y + a.height) -
      max ((occ.map fun area => area.y + area.height).foldl max 0 + 10) a.y) = 0 := by
    apply max_eq_left
    have hmin : min ((occ.map fun area => area.y + area.height).foldl max 0 + 10 + h)
        (a.y + a.height) ≤ a.y + a.height := min_le_right _ _
    have hmax : (occ.map fun area => area.y + area.height).foldl max 0 + 10 ≤
        max ((occ.map fun area => area.y + area.height).foldl max 0 + 10) a.y :=
      le_max_left _ _
    linarith
  rw [h2, mul_zero]
  have : (0 : ℚ) ≤ min (w * h) (a.width * a.height) :=
    le_min hw (hocc a ha)
  positivity

theorem findBestPosition_sound (o : PlaceOracle) (occ : List Box) (cw w h : ℚ)
    (hw : 0 ≤ w * h) (hocc : ∀ a ∈ occ, 0 ≤ a.width * a.height) :
    ∀ a ∈ occ,
      boundedOverlap ⟨(findBestPosition o occ cw w h).1,
        (findBestPosition o occ cw w h).2, w, h⟩ a := by
  intro a ha
  cases hfind : (candidatePoints o occ cw w).find?
      (fun p => !(isOverlapping occ p.1 p.2 w h)) with
  | some p =>
    have heq : findBestPosition o occ cw w h = p := by
      unfold findBestPosition
      rw [hfind]
    have hov : isOverlapping occ p.1 p.2 w h = false := by
      have h3 := List.find?_some hfind
      simpa using h3
    rw [heq]
    exact isOverlapping_eq_false hov a ha
  | none =>
    have heq : findBestPosition o occ cw w h = fallbackPoint o occ := by
      unfold findBestPosition
      rw [hfind]
    rw [heq]
    exact fallbackPoint_boundedOverlap o occ w h hw hocc a ha

theorem computeDisplaySize_ge (aspect baseSize maxDimension : ℚ) :
    100 ≤ (computeDisplaySize aspect baseSize maxDimension).1 ∧
    100 ≤ (computeDisplaySize aspect baseSize maxDimension).2 := by
  unfold computeDisplaySize
  exact ⟨le_max_right _ _, le_max_right _ _⟩

theorem attachSizes_sizes (oracle : ℕ → SizeOracle) (cw : ℚ) :
    ∀ (l : List (MediaItem × Dims)) (k : ℕ) (it : SizedItem),
    it ∈ attachSizes oracle cw k l →
    100 ≤ it.displayWidth ∧ 100 ≤ it.displayHeight := by
  intro l
  induction l with
  | nil => intro k it hit; simp [attachSizes] at hit
  | cons md rest ih =>
    intro k it hit
    rcases List.mem_cons.mp hit with rfl | hit2
    · exact computeDisplaySize_ge _ _ _
    · exact ih (k + 1) it hit2

theorem placeItems_pairwise_aux (oracle : ℕ → PlaceOracle) (cw : ℚ) :
    ∀ (items : List SizedItem) (k : ℕ) (occ : List Box),
    (∀ a ∈ occ, 0 ≤ a.width * a.height) →
    (∀ it ∈ items, 0 ≤ it.displayWidth * it.displayHeight) →
    List.Pairwise boundedOverlap occ →
    List.Pairwise boundedOverlap (occ ++ (placeItems oracle cw k occ items).map boxOf) := by
  intro items
  induction items with
  | nil =>
    intro k occ hocc hsz hpw
    simpa [placeItems] using hpw
  | cons it rest ih =>
    intro k occ hocc hsz hpw
    have hit : 0 ≤ it.displayWidth * it.displayHeight :=
      hsz it (List.mem_cons_self it rest)
    have hnew := findBestPosition_sound (oracle k) occ cw it.displayWidth it.displayHeight
      hit hocc
    have hocc2 : ∀ a ∈ occ ++
        [(⟨(findBestPosition (oracle k) occ cw it.displayWidth it.displayHeight).1,
          (findBestPosition (oracle k) occ cw it.displayWidth it.displayHeight).2,
          it.displayWidth, it.displayHeight⟩ : Box)], 0 ≤ a.width * a.height := by
      intro a haa
      rcases List.mem_append.mp haa with haa | haa
      · exact hocc a haa
      · rcases List.mem_singleton.mp haa with rfl
        exact hit
    have hpw2 : List.Pairwise boundedOverlap (occ ++
        [(⟨(findBestPosition (oracle k) occ cw it.displayWidth it.displayHeight).1,
          (findBestPosition (oracle k) occ cw it.displayWidth it.displayHeight).2,
          it.displayWidth, it.displayHeight⟩ : Box)]) := by
      rw [List.pairwise_append]
      refine ⟨hpw, List.pairwise_singleton _ _, ?_⟩
      intro a haa b hbb
      rcases List.mem_singleton.mp hbb with rfl
      exact boundedOverlap_symm (hnew a haa)
    have hsz2 : ∀ it2 ∈ rest, 0 ≤ it2.displayWidth * it2.displayHeight := by
      intro it2 h2
      exact hsz it2 (List.mem_cons_of_mem it h2)
    have hstep := ih (k + 1) _ hocc2 hsz2 hpw2
    have hshape : (placeItems oracle cw k occ (it :: rest)).map boxOf =
        (⟨(findBestPosition (oracle k) occ cw it.displayWidth it.displayHeight).1,
          (findBestPosition (oracle k) occ cw it.displayWidth it.displayHeight).2,
          it.displayWidth, it.displayHeight⟩ : Box) ::
        (placeItems oracle cw (k + 1)
          (occ ++ [(⟨(findBestPosition (oracle k) occ cw it.displayWidth it.displayHeight).1,
            (findBestPosition (oracle k) occ cw it.displayWidth it.displayHeight).2,
            it.displayWidth, it.displayHeight⟩ : Box)]) rest).map boxOf := by
      simp only [placeItems, List.map_cons]
      rfl
    rw [hshape]
    rw [List.append_assoc, List.singleton_append] at hstep
    exact hstep

end Planner

namespace CV

/-- The variant prop of CollageView; only the large variant is draggable. -/
inductive Variant
  | large
  | stack
deriving DecidableEq

/-- Geometry of the scroll container at the time of an event: the bounding
rectangle origin and the current scroll offsets. -/
structure ContainerGeom where
  rectLeft : ℚ
  rectTop : ℚ
  scrollLeft : ℚ
  scrollTop : ℚ
deriving DecidableEq

/-- The values captured by the registered document listeners: the
dragState fields they read and the canvas size seen by the
expandCanvasIfNeeded closure of the render at which the listener effect
ran.  The effect dependency list holds only isDragging and draggedItem, so
mid-gesture renders do not refresh this capture. -/
structure Snapshot where
  draggedItem : Option ℕ
  isDragging : Bool
  currentPos : Option Pos
  offset : Option Pos
  canvasSize : CanvasSize
deriving DecidableEq

/-- The state of the CollageView component that the drag handlers touch:
the DragState fields, the customPositions record, the canvas size, the
list of onGifClick invocations (most recent first), and the capture held
by the currently registered document listeners (none while no drag session
is open and hence no listeners are registered). -/
structure State where
  draggedItem : Option ℕ
  isDragging : Bool
  startPos : Option Pos
  currentPos : Option Pos
  offset : Option Pos
  customPositions : String → Option Pos
  canvasSize : CanvasSize
  clicks : List String
  snapshot : Option Snapshot

/-- The fixed grab offset of handleMouseDown (100 from the left edge, 50
from the top edge), used instead of the pointer-to-item distance. -/
def fixedDragOffset : Pos := ⟨100, 50⟩

/-- The capture a listener registration takes from a render. -/
def snapshotOf (s : State) : Snapshot :=
  ⟨s.draggedItem, s.isDragging, s.currentPos, s.offset, s.canvasSize⟩

/-- The initial component state: no drag session, no custom positions, the
canvas seeded at max(innerWidth * 10, 10000) by max(innerHeight * 10,
10000), no clicks, no registered listeners. -/
def initialState (innerWidth innerHeight : ℚ) : State where
  draggedItem := none
  isDragging := false
  startPos := none
  currentPos := none
  offset := none
  customPositions := fun _ => none
  canvasSize := ⟨max (innerWidth * 10) 10000, max (innerHeight * 10) 10000⟩
  clicks := []
  snapshot := none

/-- Models expandCanvasIfNeeded for the large variant (the function returns
early on other variants; the step function below only invokes it on the
large paths): grow an axis by the fixed amount 2000 when the position is
within 300 of its bound, and additionally jump to position + 2000 when the
position is beyond the bound itself. -/
def expandCanvasIfNeeded (c : CanvasSize) (position : Pos) : CanvasSize :=
  let expandThreshold : ℚ := 300
  let expandAmount : ℚ := 2000
  let w1 := if position.x > c.width - expandThreshold then c.width + expandAmount else c.width
  let h1 := if position.y > c.height - expandThreshold then c.height + expandAmount else c.height
  let w2 := if position.x > c.width then max w1 (position.x + expandAmount) else w1
  let h2 := if position.y > c.height then max h1 (position.y + expandAmount) else h1
  ⟨w2, h2⟩

/-- The canvas-space position computed on every mouse move:
client coordinates minus the container rectangle origin plus the current
scroll offsets. -/
def canvasPos (geom : ContainerGeom) (pointer : Pos) : Pos :=
  ⟨pointer.x - geom.rectLeft + geom.scrollLeft,
   pointer.y - geom.rectTop + geom.scrollTop⟩

/-- Models handleMouseDown: on the large variant, unconditionally open a
drag session for the pressed index, remembering the raw client position and
the fixed grab offset.  The bounding rectangle of the pressed element is
read by the source but not used for the offset. -/
def handleMouseDown (variant : Variant) (s : State) (index : ℕ)
    (pointer _rect : Pos) : State :=
  if variant ≠ Variant.large then s
  else
    { s with
      draggedItem := some index
      isDragging := true
      startPos := some pointer
      currentPos := some pointer
      offset := some fixedDragOffset }

/-- The position a move writes to the dragged element style (and that
getDragStyle renders): the canvas-space pointer position minus the
captured grab offset. -/
def moveDragPosition (geom : ContainerGeom) (offset : Pos) (pointer : Pos) : Pos :=
  ⟨(canvasPos geom pointer).x - offset.x, (canvasPos geom pointer).y - offset.y⟩

/-- Models the registered mouse-move listener.  The guard and the canvas
size read by expandCanvasIfNeeded come from the capture (the listener
closes over the render at which the effect ran), while the container
geometry is live through the ref.  The source calls setCanvasSize only
when the recomputed size differs from the size it read, so the live canvas
size is overwritten with the capture-derived value exactly in that case;
currentPos is stored through a functional state update and thus lands in
the live state. -/
def handleMouseMove (variant : Variant) (geom : ContainerGeom) (snap : Snapshot)
    (s : State) (pointer : Pos) : State :=
  if snap.isDragging = false ∨ snap.draggedItem = none ∨ variant ≠ Variant.large then s
  else
    let currentPos := canvasPos geom pointer
    let grown := expandCanvasIfNeeded snap.canvasSize currentPos
    { s with
      canvasSize := if grown = snap.canvasSize then s.canvasSize else grown
      currentPos := some currentPos }

/-- Models the registered mouse-up listener: it reads dragState from its
capture, so the committed position is the captured currentPos (the
pointer-down client position of the render that registered the listener,
however many moves happened since) minus the captured grab offset; the
commit itself goes through a functional setCustomPositions update on the
live record, and the canvas growth check again uses the captured size. -/
def handleMouseUp (variant : Variant) (gifs : List String) (snap : Snapshot)
    (s : State) : State :=
  match snap.draggedItem, snap.currentPos with
  | some index, some cp =>
    if snap.isDragging = true ∧ variant = Variant.large then
      let off := snap.offset.getD ⟨0, 0⟩
      let finalPos : Pos := ⟨cp.x - off.x, cp.y - off.y⟩
      let gifId := gifs.getD index ""
      let grown := expandCanvasIfNeeded snap.canvasSize finalPos
      { s with
        canvasSize := if grown = snap.canvasSize then s.canvasSize else grown
        customPositions := fun j => if j = gifId then some finalPos else s.customPositions j
        draggedItem := none
        isDragging := false
        startPos := none
        currentPos := none
        offset := none }
    else s
  | _, _ => s

/-- Models handleClick: the onGifClick callback fires only when no item is
being dragged and the variant is not large; on the large variant the click
is prevented instead. -/
def handleClick (variant : Variant) (gifs : List String) (s : State)
    (index : ℕ) : State :=
  if s.draggedItem = none ∧ variant ≠ Variant.large then
    { s with clicks := gifs.getD index "" :: s.clicks }
  else s

/-- Models the listener-registration effect after a render: its dependency
list holds only isDragging and draggedItem, so the registered listeners
are replaced only when one of the two changed across the event; the fresh
registration captures the after-state, and while not dragging no listeners
are registered at all. -/
def registerEffect (after before : State) : State :=
  if after.isDragging = before.isDragging ∧ after.draggedItem = before.draggedItem
  then after
  else
    { after with
      snapshot := if after.isDragging = true then some (snapshotOf after) else none }

/-- Pointer events driving the component. -/
inductive Event
  | mouseDown (index : ℕ) (pointer rect : Pos)
  | mouseMove (pointer : Pos)
  | mouseUp
  | click (index : ℕ)

/-- One event step of the component.  The mouse-down and click handlers
are bound per render and read fresh state; the move and up listeners exist
only while a capture is registered and read it; the registration effect
runs after the events that can change its dependencies. -/
def step (variant : Variant) (gifs : List String) (geom : ContainerGeom)
    (s : State) : Event → State
  | .mouseDown index pointer rect =>
    registerEffect (handleMouseDown variant s index pointer rect) s
  | .mouseMove pointer =>
    match s.snapshot with
    | some snap => handleMouseMove variant geom snap s pointer
    | none => s
  | .mouseUp =>
    match s.snapshot with
    | some snap => registerEffect (handleMouseUp variant gifs snap s) s
    | none => s
  | .click index => handleClick variant gifs s index

/-- A finite event sequence applied in delivery order. -/
def run (variant : Variant) (gifs : List String) (geom : ContainerGeom)
    (s : State) (events : List Event) : State :=
  events.foldl (step variant gifs geom) s

end CV

namespace CV1

/-- The z-order state of the earlier CollageView iteration: the per-gif
z-index record and the counter, seeded at 100 to allow room below. -/
structure ZState where
  imageZIndices : String → Option ℕ
  nextZIndex : ℕ

/-- The initial z-order state: no stored indices, counter at 100. -/
def initialZState : ZState where
  imageZIndices := fun _ => none
  nextZIndex := 100

/-- Statically assigned stacking value: getDragStyle renders an item with
the stored z-index or the default 1 when none is stored. -/
def staticBaseZIndex : ℕ := 1

/-- The commit part of handleMouseUp of that iteration: assign the current
counter value to the dragged gif and advance the counter by one. -/
def handleMouseUpCommit (s : ZState) (gifId : String) : ZState where
  imageZIndices := fun k => if k = gifId then some s.nextZIndex else s.imageZIndices k
  nextZIndex := s.nextZIndex + 1

/-- A finite sequence of drag commits applied to the initial state. -/
def commitAll (l : List String) : ZState :=
  l.foldl handleMouseUpCommit initialZState

/-- The canvas growth of the mouse-move handler of that iteration: the
canvas is the max of its current size and the drag position plus the 500
pixel buffer on each axis. -/
def growCanvasOnMove (c : CanvasSize) (newX newY : ℚ) : CanvasSize :=
  ⟨max c.width (newX + 500), max c.height (newY + 500)⟩

end CV1

namespace CV

theorem expandCanvasIfNeeded_le (c : CanvasSize) (p : Pos) :
    c.width ≤ (expandCanvasIfNeeded c p).width ∧
    c.height ≤ (expandCanvasIfNeeded c p).height := by
  unfold expandCanvasIfNeeded
  dsimp only
  constructor <;>
    (split_ifs <;>
      first
        | exact le_refl _
        | linarith
        | exact le_trans (by linarith) (le_max_left _ _))

theorem expandCanvasIfNeeded_eq (c : CanvasSize) (p : Pos)
    (h1 : c.width - 300 < p.x) (h2 : p.x ≤ c.width) (h3 : p.y ≤ c.height - 300) :
    expandCanvasIfNeeded c p = ⟨c.width + 2000, c.height⟩ := by
  unfold expandCanvasIfNeeded
  dsimp only
  split_ifs <;> first | rfl | (exfalso; linarith)

theorem registerEffect_clicks (after before : State) :
    (registerEffect after before).clicks = after.clicks := by
  unfold registerEffect
  split_ifs <;> rfl

theorem step_large_clicks (gifs : List String) (geom : ContainerGeom)
    (s : State) (e : Event) :
    (step Variant.large gifs geom s e).clicks = s.clicks := by
  cases e with
  | mouseDown index pointer rect =>
    show (registerEffect (handleMouseDown Variant.large s index pointer rect) s).clicks
      = s.clicks
    rw [registerEffect_clicks]
    unfold handleMouseDown
    split_ifs <;> rfl
  | mouseMove pointer =>
    show (match s.snapshot with
      | some snap => handleMouseMove Variant.large geom snap s pointer
      | none => s).clicks = s.clicks
    cases hs : s.snapshot with
    | none => rfl
    | some snap =>
      show (handleMouseMove Variant.large geom snap s pointer).clicks = s.clicks
      unfold handleMouseMove
      split_ifs <;> rfl
  | mouseUp =>
    show (match s.snapshot with
      | some snap => registerEffect (handleMouseUp Variant.large gifs snap s) s
      | none => s).clicks = s.clicks
    cases hs : s.snapshot with
    | none => rfl
    | some snap =>
      show (registerEffect (handleMouseUp Variant.large gifs snap s) s).clicks = s.clicks
      rw [registerEffect_clicks]
      unfold handleMouseUp
      split
      · split_ifs <;> rfl
      · rfl
  | click index =>
    show (handleClick Variant.large gifs s index).clicks = s.clicks
    unfold handleClick
    split_ifs with h
    · exact absurd rfl h.2
    · rfl

theorem run_large_clicks (gifs : List String) (geom : ContainerGeom) :
    ∀ (events : List Event) (s : State),
    (run Variant.large gifs geom s events).clicks = s.clicks := by
  intro events
  induction events with
  | nil => intro s; rfl
  | cons e rest ih =>
    intro s
    have h1 := step_large_clicks gifs geom s e
    have h2 := ih (step Variant.large gifs geom s e)
    exact h2.trans h1

end CV

namespace CV1

theorem nextZ_le_foldl : ∀ (l : List String) (s : ZState),
    s.nextZIndex ≤ (l.foldl handleMouseUpCommit s).nextZIndex := by
  intro l
  induction l with
  | nil => intro s; exact le_refl _
  | cons x t ih =>
    intro s
    rw [List.foldl_cons]
    exact le_trans (Nat.le_succ s.nextZIndex) (ih (handleMouseUpCommit s x))

theorem foldl_commit_lookup_lt : ∀ (l : List String) (s : ZState) (g : String) (z : ℕ),
    (∀ g0 z0, s.imageZIndices g0 = some z0 → z0 < s.nextZIndex) →
    (l.foldl handleMouseUpCommit s).imageZIndices g = some z →
    z < (l.foldl handleMouseUpCommit s).nextZIndex := by
  intro l
  induction l with
  | nil => intro s g z hs h; exact hs g z h
  | cons x t ih =>
    intro s g z hs h
    refine ih (handleMouseUpCommit s x) g z ?_ h
    intro g0 z0 h0
    show z0 < s.nextZIndex + 1
    have h1 : (if g0 = x then some s.nextZIndex else s.imageZIndices g0) = some z0 := h0
    by_cases hg : g0 = x
    · rw [if_pos hg] at h1
      injection h1 with h1
      omega
    · rw [if_neg hg] at h1
      exact Nat.lt_succ_of_lt (hs g0 z0 h1)

theorem foldl_commit_lookup_ge : ∀ (l : List String) (s : ZState) (g : String) (z : ℕ),
    (∀ g0 z0, s.imageZIndices g0 = some z0 → 100 ≤ z0) → 100 ≤ s.nextZIndex →
    (l.foldl handleMouseUpCommit s).imageZIndices g = some z → 100 ≤ z := by
  intro l
  induction l with
  | nil => intro s g z hs hn h; exact hs g z h
  | cons x t ih =>
    intro s g z hs hn h
    refine ih (handleMouseUpCommit s x) g z ?_ (le_trans hn (Nat.le_succ _)) h
    intro g0 z0 h0
    have h1 : (if g0 = x then some s.nextZIndex else s.imageZIndices g0) = some z0 := h0
    by_cases hg : g0 = x
    · rw [if_pos hg] at h1
      injection h1 with h1
      omega
    · rw [if_neg hg] at h1
      exact hs g0 z0 h1

theorem commitAll_append (l : List String) (g : String) :
    commitAll (l ++ [g]) = handleMouseUpCommit (commitAll l) g := by
  unfold commitAll
  rw [List.foldl_append]
  rfl

end CV1

/-- C1: For every list of items placed by the PositionPlanner
(generatePositions), and for every pair of distinct placed items, the area
of the intersection of their bounding boxes does not exceed 15 percent of
the area of the smaller of the two boxes, whether a position was accepted
by the grid scan, by a random probe, or produced by the place-below
fallback.  Pairwise together with the symmetry of boundedOverlap covers
every unordered pair of distinct placed items, for every item list, every
dimension-probe outcome and every random draw. -/
theorem claim_c1_no_catastrophic_overlap (media : List MediaItem)
    (dimOracle : String → Option Dims) (shuffleRands : ℕ → ℕ)
    (sizeOracle : ℕ → Planner.SizeOracle) (placeOracle : ℕ → Planner.PlaceOracle)
    (innerWidth : ℚ) :
    List.Pairwise Planner.boundedOverlap
      ((Planner.generatePositions media dimOracle shuffleRands sizeOracle placeOracle
        innerWidth).map Planner.boxOf) := by
  have hsz : ∀ it ∈ (Planner.attachSizes sizeOracle (innerWidth * 3) 0
      ((Planner.shuffleArray shuffleRands media).map
        fun m => (m, Planner.loadImageDimensions (dimOracle m.path)))).insertionSort
      (fun a b => b.area ≤ a.area),
      0 ≤ it.displayWidth * it.displayHeight := by
    intro it hit
    have hmem := (List.perm_insertionSort
      (fun a b : Planner.SizedItem => b.area ≤ a.area) _).mem_iff.mp hit
    have hge := Planner.attachSizes_sizes sizeOracle (innerWidth * 3) _ 0 it hmem
    exact mul_nonneg (by linarith [hge.1]) (by linarith [hge.2])
  have hmain := Planner.placeItems_pairwise_aux placeOracle (innerWidth * 3) _ 0 []
    (by intro a ha; exact absurd ha (List.not_mem_nil a)) hsz List.Pairwise.nil
  simpa [Planner.generatePositions] using hmain

/-- C2: The z-order allocator holds a single counter seeded at 100, above
the statically assigned z-index 1; each drag commit assigns the counter
value to the dragged item and advances the counter by exactly one.  After
any finite commit sequence pre ++ [last], every stored value of another
item is above the static base, at least the seed, and strictly below the
value of the item committed last. -/
theorem claim_c2_zorder_recency (pre : List String) (last g : String) (zg zl : ℕ)
    (hg : (CV1.commitAll (pre ++ [last])).imageZIndices g = some zg)
    (hl : (CV1.commitAll (pre ++ [last])).imageZIndices last = some zl)
    (hne : g ≠ last) :
    CV1.staticBaseZIndex < zg ∧ 100 ≤ zg ∧ zg < zl ∧
    (CV1.commitAll (pre ++ [last])).nextZIndex = (CV1.commitAll pre).nextZIndex + 1 := by
  rw [CV1.commitAll_append] at hg hl
  have hl2 : (if last = last then some (CV1.commitAll pre).nextZIndex
      else (CV1.commitAll pre).imageZIndices last) = some zl := hl
  rw [if_pos rfl] at hl2
  injection hl2 with hl2
  have hg2 : (if g = last then some (CV1.commitAll pre).nextZIndex
      else (CV1.commitAll pre).imageZIndices g) = some zg := hg
  rw [if_neg hne] at hg2
  have hlt := CV1.foldl_commit_lookup_lt pre CV1.initialZState g zg
    (by intro g0 z0 h0; exact absurd h0 (by simp [CV1.initialZState])) hg2
  have hge := CV1.foldl_commit_lookup_ge pre CV1.initialZState g zg
    (by intro g0 z0 h0; exact absurd h0 (by simp [CV1.initialZState])) (le_refl 100) hg2
  have hl3 : (pre.foldl CV1.handleMouseUpCommit CV1.initialZState).nextZIndex = zl := hl2
  refine ⟨?_, hge, ?_, ?_⟩
  · unfold CV1.staticBaseZIndex
    omega
  · omega
  · rw [CV1.commitAll_append]
    rfl

/-- Witness for C2 at the concrete commit sequence a then b: a holds 100,
b holds 101, and the counter advanced by one on the final commit. -/
theorem claim_c2_witness :
    CV1.staticBaseZIndex < 100 ∧ 100 ≤ 100 ∧ 100 < 101 ∧
    (CV1.commitAll (["a"] ++ ["b"])).nextZIndex = (CV1.commitAll ["a"]).nextZIndex + 1 := by
  exact claim_c2_zorder_recency ["a"] "b" "a" 100 101 rfl rfl (by decide)

/-- C3 (code bug): the claim and the spec demand that canvas bounds never
shrink within a session, but the program violates it.  In one gesture on a
10000 by 10000 canvas, a move at (9800, 9800) grows the canvas to 12000 by
12000, and the following move at (9900, 100) recomputes the growth from
the drag-start canvas capture of the registered listener (the effect
dependency list omits the canvas size) and writes 12000 by 10000: the
height falls from 12000 back to 10000.  The growth function itself never
shrinks an axis (expandCanvasIfNeeded_le), so the stale capture, not the
growth rule, causes the shrink. -/
theorem claim_c3_bounds_shrink :
    (CV.run CV.Variant.large ["a"] ⟨0, 0, 0, 0⟩ (CV.initialState 1000 800)
      [CV.Event.mouseDown 0 ⟨100, 100⟩ ⟨0, 0⟩,
       CV.Event.mouseMove ⟨9800, 9800⟩]).canvasSize = ⟨12000, 12000⟩ ∧
    (CV.run CV.Variant.large ["a"] ⟨0, 0, 0, 0⟩ (CV.initialState 1000 800)
      [CV.Event.mouseDown 0 ⟨100, 100⟩ ⟨0, 0⟩,
       CV.Event.mouseMove ⟨9800, 9800⟩,
       CV.Event.mouseMove ⟨9900, 100⟩]).canvasSize = ⟨12000, 10000⟩ ∧
    (10000 : ℚ) < 12000 := by
  have h1 : CV.step CV.Variant.large ["a"] ⟨0, 0, 0, 0⟩ (CV.initialState 1000 800)
      (CV.Event.mouseDown 0 ⟨100, 100⟩ ⟨0, 0⟩) =
      ⟨some 0, true, some ⟨100, 100⟩, some ⟨100, 100⟩, some ⟨100, 50⟩, fun _ => none,
        ⟨10000, 10000⟩, [],
        some ⟨some 0, true, some ⟨100, 100⟩, some ⟨100, 50⟩, ⟨10000, 10000⟩⟩⟩ := by
    norm_num [CV.step, CV.registerEffect, CV.handleMouseDown, CV.initialState,
      CV.snapshotOf, CV.fixedDragOffset, max_def]
  have h2 : CV.step CV.Variant.large ["a"] ⟨0, 0, 0, 0⟩
      (⟨some 0, true, some ⟨100, 100⟩, some ⟨100, 100⟩, some ⟨100, 50⟩, fun _ => none,
        ⟨10000, 10000⟩, [],
        some ⟨some 0, true, some ⟨100, 100⟩, some ⟨100, 50⟩, ⟨10000, 10000⟩⟩⟩ : CV.State)
      (CV.Event.mouseMove ⟨9800, 9800⟩) =
      ⟨some 0, true, some ⟨100, 100⟩, some ⟨9800, 9800⟩, some ⟨100, 50⟩, fun _ => none,
        ⟨12000, 12000⟩, [],
        some ⟨some 0, true, some ⟨100, 100⟩, some ⟨100, 50⟩, ⟨10000, 10000⟩⟩⟩ := by
    norm_num [CV.step, CV.handleMouseMove, CV.canvasPos, CV.expandCanvasIfNeeded]
    decide
  have h3 : CV.step CV.Variant.large ["a"] ⟨0, 0, 0, 0⟩
      (⟨some 0, true, some ⟨100, 100⟩, some ⟨9800, 9800⟩, some ⟨100, 50⟩, fun _ => none,
        ⟨12000, 12000⟩, [],
        some ⟨some 0, true, some ⟨100, 100⟩, some ⟨100, 50⟩, ⟨10000, 10000⟩⟩⟩ : CV.State)
      (CV.Event.mouseMove ⟨9900, 100⟩) =
      ⟨some 0, true, some ⟨100, 100⟩, some ⟨9900, 100⟩, some ⟨100, 50⟩, fun _ => none,
        ⟨12000, 10000⟩, [],
        some ⟨some 0, true, some ⟨100, 100⟩, some ⟨100, 50⟩, ⟨10000, 10000⟩⟩⟩ := by
    norm_num [CV.step, CV.handleMouseMove, CV.canvasPos, CV.expandCanvasIfNeeded]
    decide
  refine ⟨?_, ?_, by norm_num⟩
  · show (CV.step CV.Variant.large ["a"] ⟨0, 0, 0, 0⟩
      (CV.step CV.Variant.large ["a"] ⟨0, 0, 0, 0⟩ (CV.initialState 1000 800)
        (CV.Event.mouseDown 0 ⟨100, 100⟩ ⟨0, 0⟩))
      (CV.Event.mouseMove ⟨9800, 9800⟩)).canvasSize = ⟨12000, 12000⟩
    rw [h1, h2]
  · show (CV.step CV.Variant.large ["a"] ⟨0, 0, 0, 0⟩
      (CV.step CV.Variant.large ["a"] ⟨0, 0, 0, 0⟩
        (CV.step CV.Variant.large ["a"] ⟨0, 0, 0, 0⟩ (CV.initialState 1000 800)
          (CV.Event.mouseDown 0 ⟨100, 100⟩ ⟨0, 0⟩))
        (CV.Event.mouseMove ⟨9800, 9800⟩))
      (CV.Event.mouseMove ⟨9900, 100⟩)).canvasSize = ⟨12000, 10000⟩
    rw [h1, h2, h3]

/-- C4 counterexample: at canvas 10000 by 10000 a drag position of
x = 12500 crosses the growth threshold, but the width becomes 14500, a
growth of 4500, not the fixed increment 2000: the growth depends on how
far the position lies beyond the bound. -/
theorem claim_c4_counterexample :
    CV.expandCanvasIfNeeded ⟨10000, 10000⟩ ⟨12500, 100⟩ = ⟨14500, 10000⟩ ∧
    (14500 : ℚ) ≠ 10000 + 2000 := by
  constructor
  · norm_num [CV.expandCanvasIfNeeded, max_def]
  · norm_num

/-- C4 amended: when the drag position crosses the growth threshold (is
within 300 of the bound) without exceeding the bound itself, the axis
grows by exactly the fixed increment 2000, and repeating such a drag after
the first growth grows the axis by exactly one further increment; a
position beyond the bound instead jumps to position plus 2000. -/
theorem claim_c4_fixed_increment (c : CanvasSize) (p q : Pos)
    (hx1 : c.width - 300 < p.x) (hx2 : p.x ≤ c.width) (hy : p.y ≤ c.height - 300)
    (hq1 : c.width + 2000 - 300 < q.x) (hq2 : q.x ≤ c.width + 2000)
    (hqy : q.y ≤ c.height - 300) :
    (CV.expandCanvasIfNeeded c p).width = c.width + 2000 ∧
    (CV.expandCanvasIfNeeded c p).height = c.height ∧
    (CV.expandCanvasIfNeeded (CV.expandCanvasIfNeeded c p) q).width =
      c.width + 2000 + 2000 ∧
    (CV.expandCanvasIfNeeded (CV.expandCanvasIfNeeded c p) q).height = c.height := by
  have h1 := CV.expandCanvasIfNeeded_eq c p hx1 hx2 hy
  have h2 := CV.expandCanvasIfNeeded_eq ⟨c.width + 2000, c.height⟩ q
    (by simpa using hq1) (by simpa using hq2) (by simpa using hqy)
  rw [h1, h2]
  exact ⟨rfl, rfl, rfl, rfl⟩

/-- Witness for C4 at canvas 10000 by 10000: a threshold-crossing position
x = 9900 grows the width to 12000, and repeating with x = 11900 grows it
to 14000, one increment each time. -/
theorem claim_c4_witness :
    (CV.expandCanvasIfNeeded ⟨10000, 10000⟩ ⟨9900, 100⟩).width = 10000 + 2000 ∧
    (CV.expandCanvasIfNeeded ⟨10000, 10000⟩ ⟨9900, 100⟩).height = 10000 ∧
    (CV.expandCanvasIfNeeded (CV.expandCanvasIfNeeded ⟨10000, 10000⟩ ⟨9900, 100⟩)
      ⟨11900, 100⟩).width = 10000 + 2000 + 2000 ∧
    (CV.expandCanvasIfNeeded (CV.expandCanvasIfNeeded ⟨10000, 10000⟩ ⟨9900, 100⟩)
      ⟨11900, 100⟩).height = 10000 := by
  exact claim_c4_fixed_increment ⟨10000, 10000⟩ ⟨9900, 100⟩ ⟨11900, 100⟩
    (by norm_num) (by norm_num) (by norm_num) (by norm_num) (by norm_num) (by norm_num)

/-- C5 counterexample: a pointer-down immediately followed by pointer-up
and the ensuing click on an item of the draggable (large) variant does not
invoke the selected callback: the clicks list stays empty, against the
demand that a tap with no intervening move always invokes it. -/
theorem claim_c5_counterexample :
    (CV.run CV.Variant.large ["g0"] ⟨0, 0, 0, 0⟩ (CV.initialState 1000 800)
      [CV.Event.mouseDown 0 ⟨10, 10⟩ ⟨0, 0⟩, CV.Event.mouseUp,
       CV.Event.click 0]).clicks = [] := by
  have h := CV.run_large_clicks ["g0"] ⟨0, 0, 0, 0⟩
    [CV.Event.mouseDown 0 ⟨10, 10⟩ ⟨0, 0⟩, CV.Event.mouseUp, CV.Event.click 0]
    (CV.initialState 1000 800)
  rw [h]
  rfl

/-- C5 amended: drag sequences never invoke the selected callback, but in
the draggable (large) variant no event at all invokes it, a plain tap
included: item selection is suppressed wholesale there, while in the
non-draggable stack variant every click invokes the callback, with no drag
or displacement-threshold suppression. -/
theorem claim_c5_click_suppression :
    (∀ (gifs : List String) (geom : CV.ContainerGeom) (s : CV.State) (e : CV.Event),
      (CV.step CV.Variant.large gifs geom s e).clicks = s.clicks) ∧
    (∀ (gifs : List String) (geom : CV.ContainerGeom) (s : CV.State)
      (events : List CV.Event),
      (CV.run CV.Variant.large gifs geom s events).clicks = s.clicks) ∧
    (∀ (gifs : List String) (geom : CV.ContainerGeom) (s : CV.State) (index : ℕ),
      s.draggedItem = none →
      (CV.step CV.Variant.stack gifs geom s (CV.Event.click index)).clicks =
        gifs.getD index "" :: s.clicks) := by
  refine ⟨CV.step_large_clicks, ?_, ?_⟩
  · intro gifs geom s events
    exact CV.run_large_clicks gifs geom events s
  · intro gifs geom s index h
    show (CV.handleClick CV.Variant.stack gifs s index).clicks = _
    unfold CV.handleClick
    rw [if_pos ⟨h, by decide⟩]

/-- Witness for C5 at a concrete click on the stack variant from the
initial state: the callback fires for the clicked gif. -/
theorem claim_c5_witness :
    (CV.step CV.Variant.stack ["g0"] ⟨0, 0, 0, 0⟩ (CV.initialState 1000 800)
      (CV.Event.click 0)).clicks =
      ["g0"].getD 0 "" :: (CV.initialState 1000 800).clicks := by
  exact claim_c5_click_suppression.2.2 ["g0"] ⟨0, 0, 0, 0⟩ (CV.initialState 1000 800) 0 rfl

/-- C6 counterexample: a second pointer-down on item 1 while item 0 is
mid-drag is not a no-op: it replaces the session and re-registers the
listeners around item 1, and the release then commits a position for item
b — an item other than the one already being dragged — whose stored
position changes from none to the captured pointer-down position minus the
grab offset, (20 - 100, 20 - 50) = (-80, -30); the intervening move does
not alter the commit because the mouse-up listener reads its drag-start
capture. -/
theorem claim_c6_counterexample :
    (CV.run CV.Variant.large ["a", "b"] ⟨0, 0, 0, 0⟩ (CV.initialState 1000 800)
      [CV.Event.mouseDown 0 ⟨10, 10⟩ ⟨0, 0⟩, CV.Event.mouseDown 1 ⟨20, 20⟩ ⟨0, 0⟩,
       CV.Event.mouseMove ⟨400, 400⟩, CV.Event.mouseUp]).customPositions "b"
      = some ⟨-80, -30⟩ ∧
    (CV.initialState 1000 800).customPositions "b" = none ∧
    (CV.handleMouseDown CV.Variant.large (CV.handleMouseDown CV.Variant.large
      (CV.initialState 1000 800) 0 ⟨10, 10⟩ ⟨0, 0⟩) 1 ⟨20, 20⟩ ⟨0, 0⟩).draggedItem
      = some 1 := by
  refine ⟨?_, rfl, rfl⟩
  have h1 : CV.step CV.Variant.large ["a", "b"] ⟨0, 0, 0, 0⟩ (CV.initialState 1000 800)
      (CV.Event.mouseDown 0 ⟨10, 10⟩ ⟨0, 0⟩) =
      ⟨some 0, true, some ⟨10, 10⟩, some ⟨10, 10⟩, some ⟨100, 50⟩, fun _ => none,
        ⟨10000, 10000⟩, [],
        some ⟨some 0, true, some ⟨10, 10⟩, some ⟨100, 50⟩, ⟨10000, 10000⟩⟩⟩ := by
    norm_num [CV.step, CV.registerEffect, CV.handleMouseDown, CV.initialState,
      CV.snapshotOf, CV.fixedDragOffset, max_def]
  have h2 : CV.step CV.Variant.large ["a", "b"] ⟨0, 0, 0, 0⟩
      (⟨some 0, true, some ⟨10, 10⟩, some ⟨10, 10⟩, some ⟨100, 50⟩, fun _ => none,
        ⟨10000, 10000⟩, [],
        some ⟨some 0, true, some ⟨10, 10⟩, some ⟨100, 50⟩, ⟨10000, 10000⟩⟩⟩ : CV.State)
      (CV.Event.mouseDown 1 ⟨20, 20⟩ ⟨0, 0⟩) =
      ⟨some 1, true, some ⟨20, 20⟩, some ⟨20, 20⟩, some ⟨100, 50⟩, fun _ => none,
        ⟨10000, 10000⟩, [],
        some ⟨some 1, true, some ⟨20, 20⟩, some ⟨100, 50⟩, ⟨10000, 10000⟩⟩⟩ := by
    norm_num [CV.step, CV.registerEffect, CV.handleMouseDown, CV.snapshotOf,
      CV.fixedDragOffset]
  have h3 : CV.step CV.Variant.large ["a", "b"] ⟨0, 0, 0, 0⟩
      (⟨some 1, true, some ⟨20, 20⟩, some ⟨20, 20⟩, some ⟨100, 50⟩, fun _ => none,
        ⟨10000, 10000⟩, [],
        some ⟨some 1, true, some ⟨20, 20⟩, some ⟨100, 50⟩, ⟨10000, 10000⟩⟩⟩ : CV.State)
      (CV.Event.mouseMove ⟨400, 400⟩) =
      ⟨some 1, true, some ⟨20, 20⟩, some ⟨400, 400⟩, some ⟨100, 50⟩, fun _ => none,
        ⟨10000, 10000⟩, [],
        some ⟨some 1, true, some ⟨20, 20⟩, some ⟨100, 50⟩, ⟨10000, 10000⟩⟩⟩ := by
    norm_num [CV.step, CV.handleMouseMove, CV.canvasPos, CV.expandCanvasIfNeeded]
    decide
  show (CV.step CV.Variant.large ["a", "b"] ⟨0, 0, 0, 0⟩
    (CV.step CV.Variant.large ["a", "b"] ⟨0, 0, 0, 0⟩
      (CV.step CV.Variant.large ["a", "b"] ⟨0, 0, 0, 0⟩
        (CV.step CV.Variant.large ["a", "b"] ⟨0, 0, 0, 0⟩ (CV.initialState 1000 800)
          (CV.Event.mouseDown 0 ⟨10, 10⟩ ⟨0, 0⟩))
        (CV.Event.mouseDown 1 ⟨20, 20⟩ ⟨0, 0⟩))
      (CV.Event.mouseMove ⟨400, 400⟩))
    CV.Event.mouseUp).customPositions "b" = some ⟨-80, -30⟩
  rw [h1, h2, h3]
  norm_num [CV.step, CV.registerEffect, CV.handleMouseUp, CV.expandCanvasIfNeeded]

/-- C6 amended: a pointer-down on the draggable variant while a session is
active replaces the session with the newly pressed item; the pointer-down
itself leaves every stored position, the canvas and the click list
unchanged, but subsequent moves and the commit act on the new item. -/
theorem claim_c6_second_down_replaces (s : CV.State) (i j : ℕ) (p r : Pos)
    (_hi : s.draggedItem = some i) (_hd : s.isDragging = true) :
    (CV.handleMouseDown CV.Variant.large s j p r).draggedItem = some j ∧
    (CV.handleMouseDown CV.Variant.large s j p r).isDragging = true ∧
    (CV.handleMouseDown CV.Variant.large s j p r).customPositions = s.customPositions ∧
    (CV.handleMouseDown CV.Variant.large s j p r).canvasSize = s.canvasSize ∧
    (CV.handleMouseDown CV.Variant.large s j p r).clicks = s.clicks := by
  unfold CV.handleMouseDown
  rw [if_neg (by simp)]
  exact ⟨rfl, rfl, rfl, rfl, rfl⟩

/-- Witness for C6 at a concrete mid-drag state (item 0 pressed first,
then item 1 pressed): the session now points at item 1 and nothing stored
has changed. -/
theorem claim_c6_witness :
    (CV.handleMouseDown CV.Variant.large (CV.handleMouseDown CV.Variant.large
      (CV.initialState 1000 800) 0 ⟨10, 10⟩ ⟨0, 0⟩) 1 ⟨20, 20⟩ ⟨0, 0⟩).draggedItem
      = some 1 ∧
    (CV.handleMouseDown CV.Variant.large (CV.handleMouseDown CV.Variant.large
      (CV.initialState 1000 800) 0 ⟨10, 10⟩ ⟨0, 0⟩) 1 ⟨20, 20⟩ ⟨0, 0⟩).isDragging
      = true ∧
    (CV.handleMouseDown CV.Variant.large (CV.handleMouseDown CV.Variant.large
      (CV.initialState 1000 800) 0 ⟨10, 10⟩ ⟨0, 0⟩) 1 ⟨20, 20⟩ ⟨0, 0⟩).customPositions
      = (CV.handleMouseDown CV.Variant.large
      (CV.initialState 1000 800) 0 ⟨10, 10⟩ ⟨0, 0⟩).customPositions ∧
    (CV.handleMouseDown CV.Variant.large (CV.handleMouseDown CV.Variant.large
      (CV.initialState 1000 800) 0 ⟨10, 10⟩ ⟨0, 0⟩) 1 ⟨20, 20⟩ ⟨0, 0⟩).canvasSize
      = (CV.handleMouseDown CV.Variant.large
      (CV.initialState 1000 800) 0 ⟨10, 10⟩ ⟨0, 0⟩).canvasSize ∧
    (CV.handleMouseDown CV.Variant.large (CV.handleMouseDown CV.Variant.large
      (CV.initialState 1000 800) 0 ⟨10, 10⟩ ⟨0, 0⟩) 1 ⟨20, 20⟩ ⟨0, 0⟩).clicks
      = (CV.handleMouseDown CV.Variant.large
      (CV.initialState 1000 800) 0 ⟨10, 10⟩ ⟨0, 0⟩).clicks := by
  exact claim_c6_second_down_replaces
    (CV.handleMouseDown CV.Variant.large (CV.initialState 1000 800) 0 ⟨10, 10⟩ ⟨0, 0⟩)
    0 1 ⟨20, 20⟩ ⟨0, 0⟩ rfl rfl

/-- C7 counterexample: a pointer-down at client point (310, 220) on an
item whose rectangle origin is (300, 200) captures the fixed offset
(100, 50), not the pointer-to-item difference (10, 20): the grab offset
does not depend on where on the item the pointer went down. -/
theorem claim_c7_counterexample :
    (CV.handleMouseDown CV.Variant.large (CV.initialState 1000 800) 0
      ⟨310, 220⟩ ⟨300, 200⟩).offset = some CV.fixedDragOffset ∧
    CV.fixedDragOffset ≠ ⟨310 - 300, 220 - 200⟩ := by
  refine ⟨rfl, ?_⟩
  intro h
  have hx := congrArg Pos.x h
  norm_num [CV.fixedDragOffset] at hx

/-- C7 amended: the captured grab offset is the fixed constant (100, 50),
for every press point and item rectangle; on every pointer-move of an
active session the stored canvas-space position equals pointer minus
container origin plus current scroll offset, the registered capture (and
with it the offset in force) is unchanged by the move, and the position
written to the dragged element is that canvas-space position minus the
fixed offset. -/
theorem claim_c7_offset_amended (gifs : List String) (s : CV.State)
    (snap : CV.Snapshot) (index : ℕ) (p r q : Pos) (geom : CV.ContainerGeom)
    (hsnap : s.snapshot = some snap) (hdrag : snap.isDragging = true)
    (hitem : snap.draggedItem ≠ none) :
    (CV.handleMouseDown CV.Variant.large s index p r).offset = some CV.fixedDragOffset ∧
    (CV.step CV.Variant.large gifs geom s (CV.Event.mouseMove q)).currentPos =
      some ⟨q.x - geom.rectLeft + geom.scrollLeft, q.y - geom.rectTop + geom.scrollTop⟩ ∧
    (CV.step CV.Variant.large gifs geom s (CV.Event.mouseMove q)).snapshot = some snap ∧
    CV.moveDragPosition geom CV.fixedDragOffset q =
      ⟨q.x - geom.rectLeft + geom.scrollLeft - CV.fixedDragOffset.x,
       q.y - geom.rectTop + geom.scrollTop - CV.fixedDragOffset.y⟩ := by
  refine ⟨?_, ?_, ?_, rfl⟩
  · unfold CV.handleMouseDown
    rw [if_neg (by simp)]
  · show (match s.snapshot with
      | some snap2 => CV.handleMouseMove CV.Variant.large geom snap2 s q
      | none => s).currentPos =
      some ⟨q.x - geom.rectLeft + geom.scrollLeft, q.y - geom.rectTop + geom.scrollTop⟩
    rw [hsnap]
    show (CV.handleMouseMove CV.Variant.large geom snap s q).currentPos =
      some ⟨q.x - geom.rectLeft + geom.scrollLeft, q.y - geom.rectTop + geom.scrollTop⟩
    unfold CV.handleMouseMove
    rw [if_neg (by simp [hdrag, hitem])]
    rfl
  · show (match s.snapshot with
      | some snap2 => CV.handleMouseMove CV.Variant.large geom snap2 s q
      | none => s).snapshot = some snap
    rw [hsnap]
    show (CV.handleMouseMove CV.Variant.large geom snap s q).snapshot = some snap
    unfold CV.handleMouseMove
    rw [if_neg (by simp [hdrag, hitem])]
    exact hsnap

/-- Witness for C7 at a concrete session (press at (310, 220) on a
rectangle at (300, 200) with zero container origin and scroll, then one
move to (500, 600)). -/
theorem claim_c7_witness :
    (CV.handleMouseDown CV.Variant.large
      (CV.step CV.Variant.large ["a"] ⟨0, 0, 0, 0⟩ (CV.initialState 1000 800)
        (CV.Event.mouseDown 0 ⟨310, 220⟩ ⟨300, 200⟩))
      5 ⟨7, 8⟩ ⟨1, 2⟩).offset = some CV.fixedDragOffset ∧
    (CV.step CV.Variant.large ["a"] ⟨0, 0, 0, 0⟩
      (CV.step CV.Variant.large ["a"] ⟨0, 0, 0, 0⟩ (CV.initialState 1000 800)
        (CV.Event.mouseDown 0 ⟨310, 220⟩ ⟨300, 200⟩))
      (CV.Event.mouseMove ⟨500, 600⟩)).currentPos =
      some ⟨500 - 0 + 0, 600 - 0 + 0⟩ ∧
    (CV.step CV.Variant.large ["a"] ⟨0, 0, 0, 0⟩
      (CV.step CV.Variant.large ["a"] ⟨0, 0, 0, 0⟩ (CV.initialState 1000 800)
        (CV.Event.mouseDown 0 ⟨310, 220⟩ ⟨300, 200⟩))
      (CV.Event.mouseMove ⟨500, 600⟩)).snapshot =
      some (CV.snapshotOf (CV.handleMouseDown CV.Variant.large
        (CV.initialState 1000 800) 0 ⟨310, 220⟩ ⟨300, 200⟩)) ∧
    CV.moveDragPosition ⟨0, 0, 0, 0⟩ CV.fixedDragOffset ⟨500, 600⟩ =
      ⟨500 - 0 + 0 - CV.fixedDragOffset.x, 600 - 0 + 0 - CV.fixedDragOffset.y⟩ := by
  exact claim_c7_offset_amended ["a"]
    (CV.step CV.Variant.large ["a"] ⟨0, 0, 0, 0⟩ (CV.initialState 1000 800)
      (CV.Event.mouseDown 0 ⟨310, 220⟩ ⟨300, 200⟩))
    (CV.snapshotOf (CV.handleMouseDown CV.Variant.large
      (CV.initialState 1000 800) 0 ⟨310, 220⟩ ⟨300, 200⟩))
    5 ⟨7, 8⟩ ⟨1, 2⟩ ⟨500, 600⟩ ⟨0, 0, 0, 0⟩ rfl rfl (by decide)

/-- C8: A failing dimension probe resolves with the fixed 400 by 400
fallback instead of rejecting, and generatePositions produces exactly one
positioned item per input item: the multiset of output ids is a
permutation of the input ids, for every probe outcome, so no item is ever
omitted and nothing throws (the model is total). -/
theorem claim_c8_fallback_and_no_omission (media : List MediaItem)
    (dimOracle : String → Option Dims) (shuffleRands : ℕ → ℕ)
    (sizeOracle : ℕ → Planner.SizeOracle) (placeOracle : ℕ → Planner.PlaceOracle)
    (innerWidth : ℚ) :
    Planner.loadImageDimensions none = ⟨400, 400⟩ ∧
    List.Perm
      ((Planner.generatePositions media dimOracle shuffleRands sizeOracle placeOracle
        innerWidth).map (fun p => p.id))
      (media.map (fun m => m.id)) := by
  refine ⟨rfl, ?_⟩
  simp only [Planner.generatePositions]
  rw [Planner.placeItems_ids]
  have hsort := (List.perm_insertionSort
    (fun a b : Planner.SizedItem => b.area ≤ a.area)
    (Planner.attachSizes sizeOracle (innerWidth * 3) 0
      ((Planner.shuffleArray shuffleRands media).map
        fun m => (m, Planner.loadImageDimensions (dimOracle m.path))))).map
    (fun it => it.id)
  refine hsort.trans ?_
  rw [Planner.attachSizes_ids]
  rw [List.map_map]
  exact (Planner.shuffleArray_perm shuffleRands media).map (fun m => m.id)

/-- C9 counterexample: with an empty item list and a 1000 by 800 viewport,
generatePositions yields the empty layout with no failure and the stored
width is clamped to the viewport width, but the stored height is the JS
Math.max of an empty spread, minus infinity (modelled none), plus the
margin, which is not the viewport height 800. -/
theorem claim_c9_counterexample :
    Planner.generatePositions [] (fun _ => none) (fun _ => 0) (fun _ => ⟨0, 0, 0, 0⟩)
      (fun _ => ⟨[], 0⟩) 1000 = [] ∧
    Planner.containerHeightAfter (Planner.generatePositions [] (fun _ => none)
      (fun _ => 0) (fun _ => ⟨0, 0, 0, 0⟩) (fun _ => ⟨[], 0⟩) 1000) = none ∧
    Planner.containerHeightAfter (Planner.generatePositions [] (fun _ => none)
      (fun _ => 0) (fun _ => ⟨0, 0, 0, 0⟩) (fun _ => ⟨[], 0⟩) 1000) ≠ some (800 : ℚ) ∧
    Planner.containerWidthAfter (Planner.generatePositions [] (fun _ => none)
      (fun _ => 0) (fun _ => ⟨0, 0, 0, 0⟩) (fun _ => ⟨[], 0⟩) 1000) 1000 = 1000 := by
  refine ⟨rfl, rfl, ?_, rfl⟩
  have h0 : Planner.containerHeightAfter (Planner.generatePositions [] (fun _ => none)
      (fun _ => 0) (fun _ => ⟨0, 0, 0, 0⟩) (fun _ => ⟨[], 0⟩) 1000) = none := rfl
  rw [h0]
  simp

/-- C9 amended: an empty item list yields the empty layout with no error;
the stored width degrades to the viewport width, but the stored height is
the minus-infinity sentinel of the empty JS spread max propagated through
the margin addition, not the viewport height. -/
theorem claim_c9_empty_input (dimOracle : String → Option Dims) (shuffleRands : ℕ → ℕ)
    (sizeOracle : ℕ → Planner.SizeOracle) (placeOracle : ℕ → Planner.PlaceOracle)
    (innerWidth : ℚ) :
    Planner.generatePositions [] dimOracle shuffleRands sizeOracle placeOracle
      innerWidth = [] ∧
    Planner.containerHeightAfter (Planner.generatePositions [] dimOracle shuffleRands
      sizeOracle placeOracle innerWidth) = none ∧
    Planner.containerWidthAfter (Planner.generatePositions [] dimOracle shuffleRands
      sizeOracle placeOracle innerWidth) innerWidth = innerWidth := by
  exact ⟨rfl, rfl, rfl⟩

/-- C10: A drag commit is frame-bounded to the dragged item: the release
listener updates the custom-position record only at the dragged gif id
(the id its capture designates), and the z-index commit of the earlier
iteration updates the z-index record only at the dragged gif id; every
other id keeps exactly its previous stored position and stored z-index,
whatever the live state holds. -/
theorem claim_c10_commit_frame_bounded (gifs : List String) (snap : CV.Snapshot)
    (s : CV.State) (index : ℕ) (cp : Pos) (j : String)
    (hd : snap.draggedItem = some index) (hc : snap.currentPos = some cp)
    (hdr : snap.isDragging = true) (hj : j ≠ gifs.getD index "") :
    (CV.handleMouseUp CV.Variant.large gifs snap s).customPositions j =
      s.customPositions j ∧
    (CV.handleMouseUp CV.Variant.large gifs snap s).customPositions (gifs.getD index "") =
      some ⟨cp.x - (snap.offset.getD ⟨0, 0⟩).x, cp.y - (snap.offset.getD ⟨0, 0⟩).y⟩ ∧
    (∀ (zs : CV1.ZState) (g j2 : String), j2 ≠ g →
      (CV1.handleMouseUpCommit zs g).imageZIndices j2 = zs.imageZIndices j2) ∧
    (∀ (zs : CV1.ZState) (g : String),
      (CV1.handleMouseUpCommit zs g).imageZIndices g = some zs.nextZIndex) := by
  refine ⟨?_, ?_, ?_, ?_⟩
  · simp only [CV.handleMouseUp, hd, hc]
    rw [if_pos ⟨hdr, trivial⟩]
    dsimp only
    rw [if_neg hj]
  · simp only [CV.handleMouseUp, hd, hc]
    rw [if_pos ⟨hdr, trivial⟩]
    dsimp only
    rw [if_pos rfl]
  · intro zs g j2 hne
    show (if j2 = g then some zs.nextZIndex else zs.imageZIndices j2) = _
    rw [if_neg hne]
  · intro zs g
    show (if g = g then some zs.nextZIndex else zs.imageZIndices g) = _
    rw [if_pos rfl]

/-- Witness for C10 at a concrete session (item 0 of gifs a, b pressed at
(10, 10), no move, so the capture equals the live state): after release,
an unrelated id zz still maps to nothing and the dragged id a received the
committed position. -/
theorem claim_c10_witness :
    (CV.handleMouseUp CV.Variant.large ["a", "b"]
      (CV.snapshotOf (CV.handleMouseDown CV.Variant.large (CV.initialState 1000 800) 0
        ⟨10, 10⟩ ⟨0, 0⟩))
      (CV.handleMouseDown CV.Variant.large (CV.initialState 1000 800) 0
        ⟨10, 10⟩ ⟨0, 0⟩)).customPositions "zz" = none ∧
    (CV.handleMouseUp CV.Variant.large ["a", "b"]
      (CV.snapshotOf (CV.handleMouseDown CV.Variant.large (CV.initialState 1000 800) 0
        ⟨10, 10⟩ ⟨0, 0⟩))
      (CV.handleMouseDown CV.Variant.large (CV.initialState 1000 800) 0
        ⟨10, 10⟩ ⟨0, 0⟩)).customPositions "a" = some ⟨10 - 100, 10 - 50⟩ ∧
    (∀ (zs : CV1.ZState) (g j2 : String), j2 ≠ g →
      (CV1.handleMouseUpCommit zs g).imageZIndices j2 = zs.imageZIndices j2) ∧
    (∀ (zs : CV1.ZState) (g : String),
      (CV1.handleMouseUpCommit zs g).imageZIndices g = some zs.nextZIndex) := by
  exact claim_c10_commit_frame_bounded ["a", "b"]
    (CV.snapshotOf (CV.handleMouseDown CV.Variant.large (CV.initialState 1000 800) 0
      ⟨10, 10⟩ ⟨0, 0⟩))
    (CV.handleMouseDown CV.Variant.large (CV.initialState 1000 800) 0 ⟨10, 10⟩ ⟨0, 0⟩)
    0 ⟨10, 10⟩ "zz" rfl rfl rfl (by decide)
